import Mathlib

/-!
Verification of the DualExplorer dual-panel file manager
(src/dual_explorer.py) against its natural-language specification.

The development shallowly embeds the parts of the program the claims talk
about:

* `fnmatch` — the Python `fnmatch.fnmatch` glob matching (`*`, `?`, `[...]`
  character classes), used by the AI pipeline (`do_copy`/`do_move`/`do_delete`).
* `sort_entries`, `load_directory`, `filter_files`, `format_size` — the
  `FilePanel` listing cache, sorting and live search.
* `do_copy`, `do_move`, `do_delete`, `do_create_folder`, `do_create_file`,
  `do_rename`, `dispatch`, `execute`, `on_response_parsed` — the `AIDialog`
  command executor and the post-parse part of the response pipeline.
* `get_recent_history` — the `ChatDatabase` recent-context query.

The filesystem is modelled one directory level deep: a directory is a list
of `FsEntry` (name, kind, size, mtime, content); recursive contents of
subdirectories are abstracted away (no claim depends on them).  Failures of
individual filesystem calls (permissions, races) are modelled by an oracle
`ok : String → Option String` giving, per item name, `none` for success or
`some cause` for the failure message — mirroring the per-item
`try/except` blocks of the Python code.
-/

namespace DualExplorer

/-! ## String helpers (Python `str.lower`, substring containment) -/

/-- Python `str.lower` restricted to the alphabets the program uses:
ASCII `A`-`Z` and Cyrillic `А`-`Я`, `Ё`. -/
def pyLowerChar (c : Char) : Char :=
  if 65 ≤ c.toNat ∧ c.toNat ≤ 90 then Char.ofNat (c.toNat + 32)
  else if 0x410 ≤ c.toNat ∧ c.toNat ≤ 0x42F then Char.ofNat (c.toNat + 32)
  else if c.toNat = 0x401 then Char.ofNat 0x451
  else c

/-- Python `s.lower()`. -/
def strLower (s : String) : String := String.mk (s.data.map pyLowerChar)

/-- Python truthiness test for strings: `not s` is true iff `s` is empty. -/
def strIsEmpty (s : String) : Bool := s.data.isEmpty

/-- Does `sub` occur at the start of `l`? (Helper for substring search.) -/
def subAt : List Char → List Char → Bool
  | [], _ => true
  | _ :: _, [] => false
  | a :: as, b :: bs => a == b && subAt as bs

/-- Does `sub` occur contiguously anywhere in the second list?
Models the Python `sub in s` test on strings. -/
def hasSub (sub : List Char) : List Char → Bool
  | [] => subAt sub []
  | c :: cs => subAt sub (c :: cs) || hasSub sub cs

/-- Python `sub in s` for strings. -/
def hasSubStr (sub s : String) : Bool := hasSub sub.data s.data

/-! ## Python `fnmatch.fnmatch`

`fnmatch.translate` turns the pattern into a regex: `*` → `.*`, `?` → any
single character, `[...]`/`[!...]` → a (possibly negated) character class
(a `]` directly after `[` or `[!` is literal, an unclosed `[` is literal),
every other character is literal.  We compile the pattern to a token list
(`compileGlob`, mirroring `translate`) and run a backtracking matcher
(`matchToks`).  On POSIX `os.path.normcase` is the identity, so no case
folding happens. -/

inductive GlobTok where
  | star : GlobTok
  | any : GlobTok
  | lit : Char → GlobTok
  | cls : Bool → List Char → GlobTok
deriving DecidableEq, Repr

/-- Split a list at the first `]`, returning the part before and after it. -/
def scanClose : List Char → Option (List Char × List Char)
  | [] => none
  | c :: rest =>
    if c == ']' then some ([], rest)
    else
      match scanClose rest with
      | none => none
      | some (b, r) => some (c :: b, r)

/-- Parse the body of a bracket class (the input starts right after `[`).
Returns `(negated, body, rest)`, or `none` when there is no closing `]`
(in which case `translate` treats the `[` as a literal). A `]` directly
after `[` or `[!` belongs to the body. -/
def splitClass (l : List Char) : Option (Bool × List Char × List Char) :=
  let p : Bool × List Char :=
    match l with
    | '!' :: rest => (true, rest)
    | _ => (false, l)
  match p.2 with
  | ']' :: rest2 =>
    (match scanClose rest2 with
     | none => none
     | some (b, r) => some (p.1, ']' :: b, r))
  | _ =>
    (match scanClose p.2 with
     | none => none
     | some (b, r) => some (p.1, b, r))

/-- Does character `c` belong to a bracket-class body? Handles `a-z`
ranges; a trailing or leading `-` is literal, as in the translated regex. -/
def memClass : List Char → Char → Bool
  | [], _ => false
  | a :: '-' :: b :: rest, c =>
    (a.toNat ≤ c.toNat && c.toNat ≤ b.toNat) || memClass rest c
  | a :: rest, c => (a == c) || memClass rest c

/-- Token compiler with explicit fuel.  Each step consumes at least one
input character, so fuel `l.length` (as supplied by `compileGlob`) is
always enough and the fuel-0 branch is unreachable. -/
def compileGlobF : Nat → List Char → List GlobTok
  | 0, _ => []
  | _ + 1, [] => []
  | fuel + 1, c :: rest =>
    if c == '*' then GlobTok.star :: compileGlobF fuel rest
    else if c == '?' then GlobTok.any :: compileGlobF fuel rest
    else if c == '[' then
      match splitClass rest with
      | some (neg, body, rest2) => GlobTok.cls neg body :: compileGlobF fuel rest2
      | none => GlobTok.lit '[' :: compileGlobF fuel rest
    else GlobTok.lit c :: compileGlobF fuel rest

/-- Compile a glob pattern into tokens, mirroring `fnmatch.translate`. -/
def compileGlob (l : List Char) : List GlobTok := compileGlobF l.length l

/-- All suffixes of a list, longest first (including the list itself and `[]`). -/
def suffixes : List Char → List (List Char)
  | [] => [[]]
  | c :: cs => (c :: cs) :: suffixes cs

/-- Run compiled glob tokens against a character list.  `star` consumes an
arbitrary number of characters (regex `.*`), tried via all suffixes. -/
def matchToks : List GlobTok → List Char → Bool
  | [], s => s.isEmpty
  | GlobTok.star :: ts, s => (suffixes s).any (fun t => matchToks ts t)
  | GlobTok.any :: ts, s =>
    match s with
    | [] => false
    | _ :: cs => matchToks ts cs
  | GlobTok.lit a :: ts, s =>
    match s with
    | [] => false
    | c :: cs => a == c && matchToks ts cs
  | GlobTok.cls neg body :: ts, s =>
    match s with
    | [] => false
    | c :: cs =>
      (if neg then !(memClass body c) else memClass body c) && matchToks ts cs

/-- Python `fnmatch.fnmatch(nm, pat)` (POSIX: `normcase` is the identity). -/
def fnmatch (nm pat : String) : Bool := matchToks (compileGlob pat.data) nm.data

/-! ## Filesystem and panel model

One directory level of the two panels.  `content` is meaningful for files
only; for a directory entry the flat model abstracts its children away. -/

structure FsEntry where
  name : String
  isDir : Bool
  size : Nat
  mtime : Nat
  content : String
deriving DecidableEq, Repr

inductive Side where
  | left : Side
  | right : Side
deriving DecidableEq, Repr

/-- The current directories of the two panels plus which panel is active
(`main_window.active_panel`). -/
structure AppState where
  leftDir : List FsEntry
  rightDir : List FsEntry
  activeSide : Side
deriving DecidableEq, Repr

def getDir (st : AppState) : Side → List FsEntry
  | Side.left => st.leftDir
  | Side.right => st.rightDir

def setDir (st : AppState) : Side → List FsEntry → AppState
  | Side.left, d => ⟨d, st.rightDir, st.activeSide⟩
  | Side.right, d => ⟨st.leftDir, d, st.activeSide⟩

def hasEntry (d : List FsEntry) (n : String) : Bool := d.any (fun e => e.name == n)

def findEntry (d : List FsEntry) (n : String) : Option FsEntry :=
  d.find? (fun e => e.name == n)

/-- Create or overwrite the entry named `e.name` (`shutil.copy2` /
`copytree(dirs_exist_ok=True)` at the flat level). -/
def setEntry (d : List FsEntry) (e : FsEntry) : List FsEntry :=
  if hasEntry d e.name then d.map (fun x => if x.name == e.name then e else x)
  else d ++ [e]

/-- Remove the entry named `n` (`os.remove` / `shutil.rmtree` at the flat
level — `rmtree` removes the directory with all contents, which the flat
model renders as dropping the entry). -/
def removeEntry (d : List FsEntry) (n : String) : List FsEntry :=
  d.filter (fun e => !(e.name == n))

/-! ## AIDialog command parameters and errors -/

/-- The `params` mapping of a parsed AI command; each field models
`params.get(key)` for the corresponding JSON key (`fromSide` ↔ `"from"`,
`toSide` ↔ `"to"`, `oldKey` ↔ `"old"`, `newKey` ↔ `"new"`). -/
structure Params where
  pattern : Option String
  fromSide : Option String
  toSide : Option String
  name : Option String
  content : Option String
  old_name : Option String
  new_name : Option String
  oldKey : Option String
  newKey : Option String
deriving DecidableEq, Repr

def Params.empty : Params := ⟨none, none, none, none, none, none, none, none, none⟩

/-- Structured rendering of the exceptions the executor raises; each
constructor carries the data the corresponding Python message embeds. -/
inductive OpError where
  | invalidCommand : String → OpError
  | noMatch : String → OpError
  | itemFailed : String → String → String → OpError
  | alreadyExists : String → OpError
  | notFound : String → OpError
  | isADirectory : String → OpError
deriving DecidableEq, Repr

/-- The `ValueError` message of `do_copy` for multi-file patterns. -/
def multiCopyMsg : String :=
  "Нельзя копировать несколько конкретных файлов за раз. Используйте шаблоны (*.txt) или делайте по одному файлу."

/-- The `ValueError` message of `do_move` for multi-file patterns. -/
def multiMoveMsg : String :=
  "Нельзя перемещать несколько конкретных файлов за раз. Используйте шаблоны (*.txt) или делайте по одному файлу."

/-- The `ValueError` message of `do_delete` for multi-file patterns. -/
def multiDeleteMsg : String :=
  "Нельзя удалять несколько конкретных файлов за раз. Используйте шаблоны (*.txt) или делайте по одному файлу."

/-- The multi-file guard shared by `do_copy`/`do_move`/`do_delete`:
`"," in pattern or " и " in pattern.lower() or " and " in pattern.lower()`. -/
def containsSeparators (pat : String) : Bool :=
  hasSubStr "," pat || hasSubStr " и " (strLower pat) || hasSubStr " and " (strLower pat)

/-- `from_panel` selection: `left if p.get("from") == "left" else right`. -/
def sideFrom (p : Params) : Side :=
  if p.fromSide == some "left" then Side.left else Side.right

/-- `to_panel` selection: `right if p.get("to") == "right" else left`. -/
def sideTo (p : Params) : Side :=
  if p.toSide == some "right" then Side.right else Side.left

/-! ## Batch pattern operations (`do_copy`, `do_move`, `do_delete`)

Each Python loop iterates over a fixed `os.listdir` snapshot, applies the
per-item action inside `try/except`, and re-raises the first failure with a
message naming the item and the underlying cause.  The three loops are the
same code shape with a different per-item step, embedded once as
`batchLoop`.  `ok` is the failure oracle described in the header. -/

def copyStep (toS : Side) (st : AppState) (e : FsEntry) : AppState :=
  setDir st toS (setEntry (getDir st toS) e)

def moveStep (fromS toS : Side) (st : AppState) (e : FsEntry) : AppState :=
  setDir (setDir st fromS (removeEntry (getDir st fromS) e.name)) toS
    (setEntry (getDir (setDir st fromS (removeEntry (getDir st fromS) e.name)) toS) e)

def deleteStep (fromS : Side) (st : AppState) (e : FsEntry) : AppState :=
  setDir st fromS (removeEntry (getDir st fromS) e.name)

def batchLoop (step : AppState → FsEntry → AppState) (verb : String)
    (ok : String → Option String) (pat : String) :
    List FsEntry → AppState → Nat → Option OpError × AppState × Nat
  | [], st, count => (none, st, count)
  | e :: rest, st, count =>
    if fnmatch e.name pat then
      match ok e.name with
      | some cause => (some (OpError.itemFailed verb e.name cause), st, count)
      | none => batchLoop step verb ok pat rest (step st e) (count + 1)
    else batchLoop step verb ok pat rest st count

/-- `AIDialog.do_copy`. -/
def do_copy (p : Params) (ok : String → Option String) (st : AppState) :
    Option OpError × AppState :=
  if containsSeparators (p.pattern.getD "*") then
    (some (OpError.invalidCommand multiCopyMsg), st)
  else
    match batchLoop (copyStep (sideTo p)) "скопировать" ok (p.pattern.getD "*")
        (getDir st (sideFrom p)) st 0 with
    | (some e, st2, _) => (some e, st2)
    | (none, st2, count) =>
      if count == 0 then (some (OpError.noMatch (p.pattern.getD "*")), st2)
      else (none, st2)

/-- `AIDialog.do_move`. -/
def do_move (p : Params) (ok : String → Option String) (st : AppState) :
    Option OpError × AppState :=
  if containsSeparators (p.pattern.getD "*") then
    (some (OpError.invalidCommand multiMoveMsg), st)
  else
    match batchLoop (moveStep (sideFrom p) (sideTo p)) "переместить" ok
        (p.pattern.getD "*") (getDir st (sideFrom p)) st 0 with
    | (some e, st2, _) => (some e, st2)
    | (none, st2, count) =>
      if count == 0 then (some (OpError.noMatch (p.pattern.getD "*")), st2)
      else (none, st2)

/-- `AIDialog.do_delete`. -/
def do_delete (p : Params) (ok : String → Option String) (st : AppState) :
    Option OpError × AppState :=
  if containsSeparators (p.pattern.getD "*") then
    (some (OpError.invalidCommand multiDeleteMsg), st)
  else
    match batchLoop (deleteStep (sideFrom p)) "удалить" ok (p.pattern.getD "*")
        (getDir st (sideFrom p)) st 0 with
    | (some e, st2, _) => (some e, st2)
    | (none, st2, count) =>
      if count == 0 then (some (OpError.noMatch (p.pattern.getD "*")), st2)
      else (none, st2)

/-! ## Create and rename operations -/

/-- `AIDialog.do_create_folder`: `os.makedirs(path, exist_ok=True)` on the
active panel — a no-op when the name already exists as a directory, a
`FileExistsError` when it exists as a non-directory.  `now` supplies the
mtime the filesystem would stamp on a new directory. -/
def do_create_folder (p : Params) (now : Nat) (st : AppState) :
    Option OpError × AppState :=
  let nm := p.name.getD "Новая папка"
  match findEntry (getDir st st.activeSide) nm with
  | some e =>
    if e.isDir then (none, st) else (some (OpError.alreadyExists nm), st)
  | none =>
    (none, setDir st st.activeSide (getDir st st.activeSide ++ [⟨nm, true, 0, now, ""⟩]))

/-- `AIDialog.do_create_file`: `open(path, "w")` then `write(content)` on
the active panel — creates the file, or truncates and overwrites an
existing one; raises `IsADirectoryError` when the name is an existing
directory. -/
def do_create_file (p : Params) (now : Nat) (st : AppState) :
    Option OpError × AppState :=
  let nm := p.name.getD "новый_файл.txt"
  let c := p.content.getD ""
  if (findEntry (getDir st st.activeSide) nm).any (fun e => e.isDir) then
    (some (OpError.isADirectory nm), st)
  else
    (none, setDir st st.activeSide
      (setEntry (getDir st st.activeSide) ⟨nm, false, c.utf8ByteSize, now, c⟩))

/-- Python `a or b` for an optional string `a`: falls through on `None`
and on the empty string. -/
def pyOrStr (a : Option String) (b : String) : String :=
  match a with
  | some s => if strIsEmpty s then b else s
  | none => b

/-- The `ValueError` message of `do_rename` when a name is missing. -/
def renameMissingMsg : String := "Не указаны старое или новое имя файла"

/-- `AIDialog.do_rename` on the active panel. -/
def do_rename (p : Params) (st : AppState) : Option OpError × AppState :=
  let oldN := pyOrStr p.old_name (p.oldKey.getD "")
  let newN := pyOrStr p.new_name (p.newKey.getD "")
  if strIsEmpty oldN || strIsEmpty newN then
    (some (OpError.invalidCommand renameMissingMsg), st)
  else if !(hasEntry (getDir st st.activeSide) oldN) then
    (some (OpError.notFound oldN), st)
  else if hasEntry (getDir st st.activeSide) newN then
    (some (OpError.alreadyExists newN), st)
  else
    (none, setDir st st.activeSide
      ((getDir st st.activeSide).map
        (fun e => if e.name == oldN then ⟨newN, e.isDir, e.size, e.mtime, e.content⟩ else e)))

/-! ## Response handling (`AIDialog.on_response` after a successful JSON
parse, and `AIDialog.execute`) -/

/-- The parsed JSON object `{"action": ..., "params": ..., "message": ...}`. -/
structure Cmd where
  action : String
  params : Params
  message : String
deriving DecidableEq, Repr

/-- The `status` column of a `chat_history` row. -/
inductive EntryStatus where
  | pending : EntryStatus
  | success : EntryStatus
  | error : EntryStatus
deriving DecidableEq, Repr

/-- The `if/elif` dispatch inside `AIDialog.execute`: an action string that
matches no branch falls through and performs nothing. -/
def dispatch (c : Cmd) (ok : String → Option String) (now : Nat) (st : AppState) :
    Option OpError × AppState :=
  if c.action == "copy" then do_copy c.params ok st
  else if c.action == "move" then do_move c.params ok st
  else if c.action == "delete" then do_delete c.params ok st
  else if c.action == "create_folder" then do_create_folder c.params now st
  else if c.action == "create_file" then do_create_file c.params now st
  else if c.action == "rename" then do_rename c.params st
  else (none, st)

/-- `AIDialog.execute`: on no exception the entry is updated to SUCCESS,
on an exception to ERROR; either way the side effects made so far stay. -/
def execute (c : Cmd) (ok : String → Option String) (now : Nat) (st : AppState) :
    EntryStatus × AppState :=
  match dispatch c ok now st with
  | (none, st2) => (EntryStatus.success, st2)
  | (some _, st2) => (EntryStatus.error, st2)

/-- `AIDialog.on_response` from the point where the response has been
parsed into `c`: an explicit `"error"` action marks the entry ERROR
without executing; everything else goes to `execute`.  The returned
status is the final status written to the conversation entry. -/
def on_response_parsed (c : Cmd) (ok : String → Option String) (now : Nat)
    (st : AppState) : EntryStatus × AppState :=
  if c.action == "error" then (EntryStatus.error, st)
  else execute c ok now st

/-! ## FilePanel sorting (`FilePanel.sort_entries`)

Python `sorted(entries, key=k)` is a stable sort ascending by key;
`reverse=True` keeps equal-key elements in input order while reversing the
key order.  Both are `List.mergeSort` (stable) with the corresponding
Boolean comparison.  The `os.path.getsize`/`getmtime` calls made by the
key functions are modelled by the `size`/`mtime` fields of the entries. -/

inductive SortMode where
  | name_asc : SortMode
  | name_desc : SortMode
  | size_asc : SortMode
  | size_desc : SortMode
  | date_asc : SortMode
  | date_desc : SortMode
deriving DecidableEq, Repr

def sortAsc {α : Type} [LinearOrder α] (key : FsEntry → α) (l : List FsEntry) :
    List FsEntry :=
  l.mergeSort (fun a b => decide (key a ≤ key b))

def sortDesc {α : Type} [LinearOrder α] (key : FsEntry → α) (l : List FsEntry) :
    List FsEntry :=
  l.mergeSort (fun a b => decide (key b ≤ key a))

/-- The `str.lower` sort key used for name sorting. -/
def lowerName (e : FsEntry) : String := strLower e.name

/-- `FilePanel.sort_entries(entries, is_dir)`.  Note the two asymmetries of
the source: under the size modes directories are name-sorted ascending
(even for `size_desc`), while the date modes have no `is_dir` check at all. -/
def sort_entries (mode : SortMode) (isDir : Bool) (l : List FsEntry) :
    List FsEntry :=
  match mode with
  | SortMode.name_asc => sortAsc lowerName l
  | SortMode.name_desc => sortDesc lowerName l
  | SortMode.size_asc => if isDir then sortAsc lowerName l else sortAsc (fun e => e.size) l
  | SortMode.size_desc => if isDir then sortAsc lowerName l else sortDesc (fun e => e.size) l
  | SortMode.date_asc => sortAsc (fun e => e.mtime) l
  | SortMode.date_desc => sortDesc (fun e => e.mtime) l

/-! ## Size formatting and directory listing -/

/-- Rounded division, used to render one decimal place.  The Python code
formats a binary float with `:.1f`; this integer rendering agrees with it
except on representation-dependent ties, and is exact below 1024 bytes. -/
def roundDiv (n d : Nat) : Nat := (n + d / 2) / d

def oneDec (scaled : Nat) : String :=
  toString (scaled / 10) ++ "." ++ toString (scaled % 10)

/-- `FilePanel.format_size`: divide by 1024 across Б/КБ/МБ/ГБ, one decimal
place, falling through to ТБ. -/
def format_size (size : Nat) : String :=
  if size < 1024 then toString size ++ ".0 Б"
  else if size < 1024 * 1024 then oneDec (roundDiv (size * 10) 1024) ++ " КБ"
  else if size < 1024 * 1024 * 1024 then
    oneDec (roundDiv (size * 10) (1024 * 1024)) ++ " МБ"
  else if size < 1024 * 1024 * 1024 * 1024 then
    oneDec (roundDiv (size * 10) (1024 * 1024 * 1024)) ++ " ГБ"
  else oneDec (roundDiv (size * 10) (1024 * 1024 * 1024 * 1024)) ++ " ТБ"

/-- One `QListWidgetItem` of the panel: its display text, the full path
stored in `UserRole`, and (model annotation) whether it stands for a
directory — the classification `load_directory` made via `os.path.isdir`. -/
structure ListingItem where
  text : String
  path : String
  isDirectory : Bool
deriving DecidableEq, Repr

/-- `os.path.join` on POSIX. -/
def joinPath (d nm : String) : String := d ++ "/" ++ nm

/-- `os.path.basename` on POSIX: the segment after the last `/` (the
whole string when there is no `/`). -/
def basename (p : String) : String :=
  String.mk ((p.data.reverse.takeWhile (fun c => !(c == '/'))).reverse)

/-- `os.path.dirname` on POSIX: everything before the last `/` (the root
itself when the last `/` is leading; unchanged when there is no `/`). -/
def dirname (p : String) : String :=
  match (p.data.reverse.dropWhile (fun c => !(c == '/'))) with
  | [] => p
  | _ :: rest => if rest.isEmpty then "/" else String.mk rest.reverse

/-- `FilePanel.load_directory`: the cached item list (`all_items`) built
from one `os.listdir` snapshot `entries` of `currentPath`.  `isRoot`
states whether `os.path.dirname(currentPath) == currentPath`.  Directories
and files are sorted separately; directories are listed first, after the
synthetic `..` parent item (absent at the root).  The `except` fallback
for a file whose size cannot be read (a filesystem race) is outside this
pure model; files render as `name (size)`. -/
def load_directory (currentPath : String) (isRoot : Bool) (mode : SortMode)
    (entries : List FsEntry) : List ListingItem :=
  (if isRoot then [] else [⟨"..", dirname currentPath, true⟩])
    ++ (sort_entries mode true (entries.filter (fun e => e.isDir))).map
        (fun e => ⟨e.name, joinPath currentPath e.name, true⟩)
    ++ (sort_entries mode false (entries.filter (fun e => !e.isDir))).map
        (fun e => ⟨e.name ++ " (" ++ format_size e.size ++ ")",
                   joinPath currentPath e.name, false⟩)

/-! ## Live search (`FilePanel.filter_files`) -/

/-- The per-item test of `filter_files`: the lowered search string occurs
as a substring of the lowered display text or of the lowered base name
(empty when the item has no stored path — the Python falsy check). -/
def searchMatches (s : String) (it : ListingItem) : Bool :=
  hasSubStr s (strLower it.text) ||
    hasSubStr s (if strIsEmpty it.path then "" else strLower (basename it.path))

/-- `FilePanel.filter_files`: an empty search shows the whole cache,
otherwise the cache is filtered by `searchMatches` in cache order. -/
def filter_files (search : String) (allItems : List ListingItem) :
    List ListingItem :=
  if strIsEmpty (strLower search) then allItems
  else allItems.filter (searchMatches (strLower search))

/-! ## ChatDatabase (`get_recent_history`)

A `chat_history` row.  The table is modelled as a list in insertion order;
since `id` is `AUTOINCREMENT`, insertion order coincides with id order and
`ORDER BY id DESC` in the query is list reversal. -/

structure ChatRow where
  rowId : Nat
  timestamp : String
  user_message : String
  ai_response : Option String
  action : Option String
  params : Option Params
  status : EntryStatus
  error_message : Option String
deriving DecidableEq, Repr

/-- `ChatDatabase.get_recent_history(count)`: `ORDER BY id DESC LIMIT
count` (reverse, take) then `list(reversed(...))` back into chronological
order. -/
def get_recent_history (count : Nat) (db : List ChatRow) : List ChatRow :=
  (db.reverse.take count).reverse

/-! ## Helper lemmas -/

theorem nil_mem_suffixes : ∀ cs : List Char, [] ∈ suffixes cs := by
  intro cs
  induction cs with
  | nil => simp [suffixes]
  | cons c cs ih => simp [suffixes]; exact ih

theorem matchToks_star_only (cs : List Char) :
    matchToks [GlobTok.star] cs = true := by
  rw [matchToks]
  exact List.any_eq_true.mpr ⟨[], nil_mem_suffixes cs, rfl⟩

/-- The pattern `"*"` matches every name, as `fnmatch("x", "*")` does. -/
theorem fnmatch_star (nm : String) : fnmatch nm "*" = true := by
  have hc : compileGlob ("*".data) = [GlobTok.star] := rfl
  rw [fnmatch, hc]
  exact matchToks_star_only nm.data

theorem getDir_setDir (st : AppState) (s : Side) (d : List FsEntry) :
    getDir (setDir st s d) s = d := by
  cases s <;> rfl

theorem setDir_setDir (st : AppState) (s : Side) (d1 d2 : List FsEntry) :
    setDir (setDir st s d1) s d2 = setDir st s d2 := by
  cases s <;> rfl

theorem setDir_getDir (st : AppState) (s : Side) :
    setDir st s (getDir st s) = st := by
  cases s <;> rfl

/-- A batch loop over a snapshot none of whose entries match the pattern
does nothing and counts zero items. -/
theorem batchLoop_no_match (step : AppState → FsEntry → AppState) (verb : String)
    (ok : String → Option String) (pat : String) :
    ∀ (l : List FsEntry) (st : AppState) (c : Nat),
      (∀ e ∈ l, fnmatch e.name pat = false) →
      batchLoop step verb ok pat l st c = (none, st, c) := by
  intro l
  induction l with
  | nil => intro st c _; rfl
  | cons e rest ih =>
    intro st c h
    rw [batchLoop, h e (by simp)]
    simp only [Bool.false_eq_true, if_false]
    exact ih st c (fun x hx => h x (by simp [hx]))

/-- A batch loop in which every matching item succeeds applies the step to
exactly the matching items, in snapshot order. -/
theorem batchLoop_all_ok (step : AppState → FsEntry → AppState) (verb : String)
    (ok : String → Option String) (pat : String) :
    ∀ (l : List FsEntry) (st : AppState) (c : Nat),
      (∀ e ∈ l, fnmatch e.name pat = true → ok e.name = none) →
      batchLoop step verb ok pat l st c =
        (none, List.foldl step st (l.filter (fun e => fnmatch e.name pat)),
         c + (l.filter (fun e => fnmatch e.name pat)).length) := by
  intro l
  induction l with
  | nil => intro st c _; rfl
  | cons e rest ih =>
    intro st c h
    rw [batchLoop]
    by_cases he : fnmatch e.name pat = true
    · rw [he, if_pos rfl, h e (by simp) he]
      rw [ih (step st e) (c + 1) (fun x hx hm => h x (by simp [hx]) hm)]
      simp [List.filter_cons, he, List.foldl_cons]
      omega
    · rw [Bool.not_eq_true] at he
      rw [he]
      simp only [Bool.false_eq_true, if_false]
      rw [ih st c (fun x hx hm => h x (by simp [hx]) hm)]
      simp [List.filter_cons, he]

/-- A batch loop stops at the first matching item whose action fails,
reporting that item and cause; the items already processed stay applied
and nothing after the failing item is attempted. -/
theorem batchLoop_first_failure (step : AppState → FsEntry → AppState)
    (verb : String) (ok : String → Option String) (pat : String) :
    ∀ (s1 : List FsEntry) (x : FsEntry) (s2 : List FsEntry) (st : AppState)
      (c : Nat) (cause : String),
      (∀ y ∈ s1, fnmatch y.name pat = true → ok y.name = none) →
      fnmatch x.name pat = true → ok x.name = some cause →
      batchLoop step verb ok pat (s1 ++ x :: s2) st c =
        (some (OpError.itemFailed verb x.name cause),
         List.foldl step st (s1.filter (fun y => fnmatch y.name pat)),
         c + (s1.filter (fun y => fnmatch y.name pat)).length) := by
  intro s1
  induction s1 with
  | nil =>
    intro x s2 st c cause _ hx hfail
    rw [List.nil_append, batchLoop, hx, if_pos rfl, hfail]
    simp
  | cons y t ih =>
    intro x s2 st c cause h hx hfail
    rw [List.cons_append, batchLoop]
    by_cases hy : fnmatch y.name pat = true
    · rw [hy, if_pos rfl, h y (by simp) hy]
      rw [ih x s2 (step st y) (c + 1) cause (fun z hz hm => h z (by simp [hz]) hm) hx hfail]
      simp [List.filter_cons, hy, List.foldl_cons]
      omega
    · rw [Bool.not_eq_true] at hy
      rw [hy]
      simp only [Bool.false_eq_true, if_false]
      rw [ih x s2 st c cause (fun z hz hm => h z (by simp [hz]) hm) hx hfail]
      simp [List.filter_cons, hy]

/-- Is there an entry in `l` with the same name as `e`? -/
def nameInList (l : List FsEntry) (e : FsEntry) : Bool :=
  l.any (fun y => e.name == y.name)

/-- Folding `deleteStep` over a list of items removes exactly the entries
bearing one of those names from the panel directory and touches nothing
else. -/
theorem foldl_deleteStep (fS : Side) :
    ∀ (l : List FsEntry) (st : AppState),
      List.foldl (deleteStep fS) st l =
        setDir st fS ((getDir st fS).filter (fun e => !(nameInList l e))) := by
  intro l
  induction l with
  | nil =>
    intro st
    simp only [List.foldl_nil, nameInList, List.any_nil, Bool.not_false, List.filter_true]
    exact (setDir_getDir st fS).symm
  | cons y t ih =>
    intro st
    rw [List.foldl_cons, ih, deleteStep, removeEntry, getDir_setDir, setDir_setDir,
      List.filter_filter]
    congr 1
    apply List.filter_congr
    intro e _
    simp [nameInList, List.any_cons, Bool.not_or, Bool.and_comm]

theorem filter_nameInList_self (d : List FsEntry) :
    d.filter (fun e => !(nameInList d e)) = [] := by
  rw [List.filter_eq_nil_iff]
  intro e he
  simp [nameInList]
  exact ⟨e, he, rfl⟩

/-! ## C1 — unknown interpreter action

The spec requires an unknown `action` value to end in `Failed`/ERROR.  In
the code, the `if/elif` dispatch of `execute` has no final `else`: an unknown
action falls through every branch, then the success epilogue runs
(`refresh_panels`, `"✅ Готово!"`, `status="success"`).  The theorem below
evaluates the embedded pipeline at such an input: the final status is
SUCCESS, not ERROR (the filesystem is indeed left unchanged). -/

/-- C1 (code bug witness): a response parsed as action `"teleport"` (not
one of the six actions and not `"error"`) drives the pipeline to the
success epilogue — the history entry receives status SUCCESS, not ERROR —
while performing no filesystem mutation. -/
theorem c1_unknown_action_reports_success (prm : Params) (msg : String)
    (ok : String → Option String) (now : Nat) (st : AppState) :
    on_response_parsed ⟨"teleport", prm, msg⟩ ok now st = (EntryStatus.success, st) := by
  rw [on_response_parsed]
  simp only [show (("teleport" : String) == "error") = false from rfl, Bool.false_eq_true,
    if_false]
  rw [execute]
  simp only [dispatch]
  rfl

/-! ## C2 — create-folder / create-file on an existing destination

The claim says both fail with `AlreadyExists` and never overwrite.  In the
code `do_create_folder` calls `os.makedirs(path, exist_ok=True)` — a silent
no-op when the directory exists — and `do_create_file` opens the path with
mode `"w"`, truncating and overwriting an existing file. -/

def stC2 : AppState :=
  ⟨[⟨"a.txt", false, 3, 0, "old"⟩, ⟨"docs", true, 0, 0, ""⟩], [], Side.left⟩

/-- C2 (counterexample): with `a.txt` (a file with content `"old"`) and
`docs` (a directory) present, `create_folder docs` succeeds as a no-op and
`create_file a.txt` succeeds and replaces the content of the file — neither
fails with `AlreadyExists`, and the file is truncated/overwritten. -/
theorem c2_create_overwrites_counterexample :
    do_create_folder ⟨none, none, none, some "docs", none, none, none, none, none⟩ 7 stC2
        = (none, stC2)
    ∧ do_create_file ⟨none, none, none, some "a.txt", some "new!", none, none, none, none⟩ 7 stC2
        = (none, ⟨[⟨"a.txt", false, 4, 7, "new!"⟩, ⟨"docs", true, 0, 0, ""⟩], [], Side.left⟩) := by
  constructor
  · rfl
  · rfl

/-- C2 (amended): when the destination name already exists in the active
panel directory, `create_folder` succeeds silently as a no-op if the
existing entry is a directory, and `create_file` succeeds by overwriting —
truncating — the existing file, replacing its content with the new one;
neither reports `AlreadyExists` in these cases. -/
theorem c2_create_overwrite_semantics (st : AppState) (now : Nat)
    (nm c : String) (e : FsEntry)
    (hfind : findEntry (getDir st st.activeSide) nm = some e) :
    (e.isDir = true →
      do_create_folder ⟨none, none, none, some nm, none, none, none, none, none⟩ now st
        = (none, st))
    ∧ (e.isDir = false →
      do_create_file ⟨none, none, none, some nm, some c, none, none, none, none⟩ now st
        = (none, setDir st st.activeSide
            (setEntry (getDir st st.activeSide) ⟨nm, false, c.utf8ByteSize, now, c⟩))) := by
  constructor
  · intro hdir
    rw [do_create_folder]
    simp only [Option.getD_some, hfind, hdir, if_true]
  · intro hfile
    rw [do_create_file]
    simp only [Option.getD_some, hfind, Option.any_some, hfile, Bool.false_eq_true, if_false]

/-- C2 (witness for the amended theorem): applying it to `stC2` at the
existing directory `docs` and the existing file `a.txt`. -/
theorem c2_create_overwrite_semantics_witness :
    do_create_folder ⟨none, none, none, some "docs", none, none, none, none, none⟩ 7 stC2
        = (none, stC2)
    ∧ do_create_file ⟨none, none, none, some "a.txt", some "x", none, none, none, none⟩ 7 stC2
        = (none, setDir stC2 stC2.activeSide
            (setEntry (getDir stC2 stC2.activeSide) ⟨"a.txt", false, 1, 7, "x"⟩)) :=
  ⟨(c2_create_overwrite_semantics stC2 7 "docs" "x"
      ⟨"docs", true, 0, 0, ""⟩ (by decide)).1 rfl,
   (c2_create_overwrite_semantics stC2 7 "a.txt" "x"
      ⟨"a.txt", false, 3, 0, "old"⟩ (by decide)).2 rfl⟩

/-! ## C3 — live search semantics

The spec claims the search box filters the cache with the same shell-glob
matching (`fnmatch`) the AI pipeline uses.  In the code `filter_files`
performs case-insensitive *substring* containment over the display text
and base name — glob metacharacters have no special meaning there. -/

/-- A one-file cache as `load_directory` would build it for a 1-byte file
`a.txt`. -/
def cacheA : List ListingItem := [⟨"a.txt (1.0 Б)", "/A/a.txt", false⟩]

theorem strIsEmpty_strLower (s : String) :
    strIsEmpty (strLower s) = strIsEmpty s := by
  cases s with
  | mk d => cases d <;> rfl

theorem strIsEmpty_false_of_ne (s : String) (h : s ≠ "") :
    strIsEmpty s = false := by
  cases s with
  | mk d =>
    cases d with
    | nil => exact absurd rfl h
    | cons a t => rfl

/-- C3 (counterexample): the glob pattern `*.txt` matches the base name
`a.txt` under the matcher of the AI pipeline (`fnmatch`), so the claimed
glob-semantics filter would return the entry — but the live search filter
returns the empty list, because `*.txt` is not a substring of that entry,
text or name. -/
theorem c3_search_not_glob_counterexample :
    filter_files "*.txt" cacheA = []
    ∧ cacheA.filter (fun it => fnmatch (basename it.path) "*.txt") = cacheA := by
  constructor
  · rfl
  · rfl

/-- C3 (amended): for every cached listing and non-empty search string
`P`, the live search filter returns exactly the subset of cached entries
whose display text or base name contains `P` as a case-insensitive
substring — plain substring matching, not the shell-glob matching used by
the AI pipeline — kept in cache order; an empty match set yields an empty
result, not an error. -/
theorem c3_search_substring_semantics (s : String) (cache : List ListingItem)
    (hs : s ≠ "") :
    (filter_files s cache).Sublist cache
    ∧ (∀ it, it ∈ filter_files s cache ↔
        it ∈ cache ∧ searchMatches (strLower s) it = true) := by
  have he : strIsEmpty (strLower s) = false := by
    rw [strIsEmpty_strLower]
    exact strIsEmpty_false_of_ne s hs
  rw [filter_files, he]
  simp only [Bool.false_eq_true, if_false]
  exact ⟨List.filter_sublist cache, fun it => List.mem_filter⟩

/-- C3 (witness): the amended theorem applied to the one-file cache with
the search string `a.t`, which selects the entry by substring. -/
theorem c3_search_substring_semantics_witness :
    (filter_files "a.t" cacheA).Sublist cacheA
    ∧ (⟨"a.txt (1.0 Б)", "/A/a.txt", false⟩ : ListingItem) ∈ filter_files "a.t" cacheA :=
  ⟨(c3_search_substring_semantics "a.t" cacheA (by decide)).1,
   ((c3_search_substring_semantics "a.t" cacheA (by decide)).2 _).mpr
     ⟨by simp [cacheA], by decide⟩⟩

/-! ## C4 — copyPattern example and NoMatch -/

def aTxt : FsEntry := ⟨"a.txt", false, 5, 10, "aaaaa"⟩
def bTxt : FsEntry := ⟨"b.txt", false, 3, 11, "bbb"⟩
def cLog : FsEntry := ⟨"c.log", false, 4, 12, "cccc"⟩

/-- The failure oracle of a run in which every filesystem call succeeds. -/
def noFail : String → Option String := fun _ => none

/-- The copy command `pattern="*.txt", from=left, to=right`. -/
def p4 : Params :=
  ⟨some "*.txt", some "left", some "right", none, none, none, none, none, none⟩

/-- C4: copying `*.txt` from a directory `{a.txt, b.txt, c.log}` into an
empty destination leaves the destination `{a.txt, b.txt}` and the source
unchanged; and any copy whose pattern (free of the multi-file separators)
matches no entry of the source directory fails with `NoMatch` carrying the
pattern, leaving the state untouched. -/
theorem c4_copy_pattern_behavior (p : Params) (ok : String → Option String)
    (st : AppState)
    (hsep : containsSeparators (p.pattern.getD "*") = false)
    (hnone : ∀ e ∈ getDir st (sideFrom p), fnmatch e.name (p.pattern.getD "*") = false) :
    do_copy p4 noFail ⟨[aTxt, bTxt, cLog], [], Side.left⟩
        = (none, ⟨[aTxt, bTxt, cLog], [aTxt, bTxt], Side.left⟩)
    ∧ do_copy p ok st = (some (OpError.noMatch (p.pattern.getD "*")), st) := by
  constructor
  · rfl
  · rw [do_copy]
    simp only [hsep, Bool.false_eq_true, if_false]
    rw [batchLoop_no_match _ _ _ _ _ _ _ hnone]
    rfl

/-- C4 (witness): the concrete copy plus `NoMatch` on a source holding
only `c.log`. -/
theorem c4_copy_pattern_behavior_witness :
    do_copy p4 noFail ⟨[aTxt, bTxt, cLog], [], Side.left⟩
        = (none, ⟨[aTxt, bTxt, cLog], [aTxt, bTxt], Side.left⟩)
    ∧ do_copy p4 noFail ⟨[cLog], [], Side.left⟩
        = (some (OpError.noMatch "*.txt"), ⟨[cLog], [], Side.left⟩) :=
  c4_copy_pattern_behavior p4 noFail ⟨[cLog], [], Side.left⟩ (by decide) (by decide)

/-! ## C5 — sort fallback for directories

The spec claims both the size and the date sort modes fall back to
name-sorting for the directory subset.  True for the size modes; the date
branch of `sort_entries` has no `is_dir` check, so directories are sorted
by modification time there. -/

theorem sortAsc_perm {α : Type} [LinearOrder α] (key : FsEntry → α)
    (l : List FsEntry) : (sortAsc key l).Perm l :=
  List.mergeSort_perm l _

theorem sortDesc_perm {α : Type} [LinearOrder α] (key : FsEntry → α)
    (l : List FsEntry) : (sortDesc key l).Perm l :=
  List.mergeSort_perm l _

theorem sortAsc_pairwise {α : Type} [LinearOrder α] (key : FsEntry → α)
    (l : List FsEntry) :
    List.Pairwise (fun a b => key a ≤ key b) (sortAsc key l) := by
  have h := @List.sorted_mergeSort FsEntry (fun a b => decide (key a ≤ key b))
    (fun a b c hab hbc => by
      rw [decide_eq_true_eq] at hab hbc ⊢
      exact le_trans hab hbc)
    (fun a b => by
      rw [Bool.or_eq_true, decide_eq_true_eq, decide_eq_true_eq]
      exact le_total _ _)
    l
  exact h.imp (fun hab => by
    rw [decide_eq_true_eq] at hab
    exact hab)

theorem sortDesc_pairwise {α : Type} [LinearOrder α] (key : FsEntry → α)
    (l : List FsEntry) :
    List.Pairwise (fun a b => key b ≤ key a) (sortDesc key l) := by
  have h := @List.sorted_mergeSort FsEntry (fun a b => decide (key b ≤ key a))
    (fun a b c hab hbc => by
      rw [decide_eq_true_eq] at hab hbc ⊢
      exact le_trans hbc hab)
    (fun a b => by
      rw [Bool.or_eq_true, decide_eq_true_eq, decide_eq_true_eq]
      exact le_total _ _)
    l
  exact h.imp (fun hab => by
    rw [decide_eq_true_eq] at hab
    exact hab)

def dirB : FsEntry := ⟨"b", true, 0, 1, ""⟩
def dirA : FsEntry := ⟨"a", true, 0, 2, ""⟩

/-- C5 (counterexample): under `date_asc`, the directory subset
`[b (mtime 1), a (mtime 2)]` is returned in modification-time order
`[b, a]`, which is not ordered by name — the date modes do not fall back
to name-sorting for directories. -/
theorem c5_date_sort_dirs_counterexample :
    sort_entries SortMode.date_asc true [dirB, dirA] = [dirB, dirA]
    ∧ ¬ List.Pairwise (fun x y : FsEntry => lowerName x ≤ lowerName y) [dirB, dirA] := by
  constructor
  · exact List.mergeSort_of_sorted (by decide)
  · intro h
    rw [List.pairwise_cons] at h
    have hba : ("b" : String) ≤ "a" := h.1 dirA (by simp)
    rw [String.le_iff_toList_le] at hba
    revert hba
    decide

/-- C5 (amended): under the size sort modes the directory subset falls
back to name order — a permutation of the input sorted by lowercased name
ascending, in both `size_asc` and `size_desc` — while under the date sort
modes directories are ordered by modification time exactly like files (no
name fallback); the file subset is ordered by the size key in the size
modes. -/
theorem c5_sort_fallback_amended (l : List FsEntry) :
    ((sort_entries SortMode.size_asc true l).Perm l
      ∧ List.Pairwise (fun a b => lowerName a ≤ lowerName b)
          (sort_entries SortMode.size_asc true l))
    ∧ ((sort_entries SortMode.size_desc true l).Perm l
      ∧ List.Pairwise (fun a b => lowerName a ≤ lowerName b)
          (sort_entries SortMode.size_desc true l))
    ∧ ((sort_entries SortMode.date_asc true l).Perm l
      ∧ List.Pairwise (fun a b => a.mtime ≤ b.mtime)
          (sort_entries SortMode.date_asc true l))
    ∧ ((sort_entries SortMode.date_desc true l).Perm l
      ∧ List.Pairwise (fun a b => b.mtime ≤ a.mtime)
          (sort_entries SortMode.date_desc true l))
    ∧ List.Pairwise (fun a b => a.size ≤ b.size)
        (sort_entries SortMode.size_asc false l)
    ∧ List.Pairwise (fun a b => b.size ≤ a.size)
        (sort_entries SortMode.size_desc false l) :=
  ⟨⟨sortAsc_perm lowerName l, sortAsc_pairwise lowerName l⟩,
   ⟨sortAsc_perm lowerName l, sortAsc_pairwise lowerName l⟩,
   ⟨sortAsc_perm (fun e => e.mtime) l, sortAsc_pairwise (fun e => e.mtime) l⟩,
   ⟨sortDesc_perm (fun e => e.mtime) l, sortDesc_pairwise (fun e => e.mtime) l⟩,
   sortAsc_pairwise (fun e => e.size) l,
   sortDesc_pairwise (fun e => e.size) l⟩

/-! ## C6 — multi-file separator guardrail -/

/-- C6: a copy/move/delete command whose pattern contains a comma or a
lowercased ` и `/` and ` separator is rejected with the per-operation
invalid-command error before anything else happens — the state is
returned unchanged. -/
theorem c6_separator_guardrail (p : Params) (ok : String → Option String)
    (st : AppState)
    (h : containsSeparators (p.pattern.getD "*") = true) :
    do_copy p ok st = (some (OpError.invalidCommand multiCopyMsg), st)
    ∧ do_move p ok st = (some (OpError.invalidCommand multiMoveMsg), st)
    ∧ do_delete p ok st = (some (OpError.invalidCommand multiDeleteMsg), st) := by
  refine ⟨?_, ?_, ?_⟩
  · rw [do_copy, h]
    rfl
  · rw [do_move, h]
    rfl
  · rw [do_delete, h]
    rfl

def pSep : Params :=
  ⟨some "a.txt, b.txt", some "left", some "right", none, none, none, none, none, none⟩

/-- C6 (witness): the guardrail firing on the pattern `a.txt, b.txt`. -/
theorem c6_separator_guardrail_witness :
    do_copy pSep noFail ⟨[aTxt], [], Side.left⟩
        = (some (OpError.invalidCommand multiCopyMsg), ⟨[aTxt], [], Side.left⟩)
    ∧ do_move pSep noFail ⟨[aTxt], [], Side.left⟩
        = (some (OpError.invalidCommand multiMoveMsg), ⟨[aTxt], [], Side.left⟩)
    ∧ do_delete pSep noFail ⟨[aTxt], [], Side.left⟩
        = (some (OpError.invalidCommand multiDeleteMsg), ⟨[aTxt], [], Side.left⟩) :=
  c6_separator_guardrail pSep noFail ⟨[aTxt], [], Side.left⟩ (by decide)

/-! ## C7 — listing structure: parent item first, directories before files -/

theorem sort_entries_perm (mode : SortMode) (b : Bool) (l : List FsEntry) :
    (sort_entries mode b l).Perm l := by
  cases mode <;> cases b <;>
    first
      | exact sortAsc_perm _ _
      | exact sortDesc_perm _ _

/-- The listing splits into a block of directory items followed by a block
of file items. -/
def dirsBeforeFiles (l : List ListingItem) : Prop :=
  ∃ ds fs, l = ds ++ fs
    ∧ (∀ x ∈ ds, x.isDirectory = true)
    ∧ (∀ x ∈ fs, x.isDirectory = false)

/-- C7: for every directory load and every sort mode, the produced listing
is a block of directory items followed by a block of file items; away from
the filesystem root its first item is the synthetic `..` parent reference;
and every entry of the snapshot appears in the listing with its path and
kind. -/
theorem c7_listing_structure (cp : String) (isRoot : Bool) (mode : SortMode)
    (entries : List FsEntry) :
    dirsBeforeFiles (load_directory cp isRoot mode entries)
    ∧ (isRoot = false →
        (load_directory cp isRoot mode entries).head?
          = some ⟨"..", dirname cp, true⟩)
    ∧ (∀ e ∈ entries, ∃ it ∈ load_directory cp isRoot mode entries,
        it.path = joinPath cp e.name ∧ it.isDirectory = e.isDir) := by
  refine ⟨?_, ?_, ?_⟩
  · refine ⟨(if isRoot then [] else [⟨"..", dirname cp, true⟩])
        ++ (sort_entries mode true (entries.filter (fun e => e.isDir))).map
            (fun e => ⟨e.name, joinPath cp e.name, true⟩),
      (sort_entries mode false (entries.filter (fun e => !e.isDir))).map
        (fun e => ⟨e.name ++ " (" ++ format_size e.size ++ ")",
                   joinPath cp e.name, false⟩),
      ?_, ?_, ?_⟩
    · rw [load_directory, List.append_assoc]
    · intro x hx
      rcases List.mem_append.mp hx with hx1 | hx2
      · cases isRoot with
        | true => simp at hx1
        | false =>
          simp only [if_neg Bool.false_ne_true] at hx1
          rw [List.mem_singleton.mp hx1]
      · rcases List.mem_map.mp hx2 with ⟨e, _, he⟩
        rw [← he]
    · intro x hx
      rcases List.mem_map.mp hx with ⟨e, _, he⟩
      rw [← he]
  · intro h
    rw [h, load_directory]
    rfl
  · intro e he
    by_cases hd : e.isDir = true
    · refine ⟨⟨e.name, joinPath cp e.name, true⟩, ?_, rfl, hd.symm⟩
      rw [load_directory]
      refine List.mem_append.mpr (Or.inl (List.mem_append.mpr (Or.inr ?_)))
      refine List.mem_map.mpr ⟨e, ?_, rfl⟩
      exact ((sort_entries_perm mode true _).mem_iff).mpr
        (List.mem_filter.mpr ⟨he, hd⟩)
    · rw [Bool.not_eq_true] at hd
      refine ⟨⟨e.name ++ " (" ++ format_size e.size ++ ")", joinPath cp e.name, false⟩,
        ?_, rfl, hd.symm⟩
      rw [load_directory]
      refine List.mem_append.mpr (Or.inr ?_)
      refine List.mem_map.mpr ⟨e, ?_, rfl⟩
      exact ((sort_entries_perm mode false _).mem_iff).mpr
        (List.mem_filter.mpr ⟨he, by rw [hd]; rfl⟩)

def fEnt : FsEntry := ⟨"f.txt", false, 2, 5, "hi"⟩

/-- C7 (witness): a non-root load of one file, with the parent item first
and the file present in the listing. -/
theorem c7_listing_structure_witness :
    dirsBeforeFiles (load_directory "/r" false SortMode.name_asc [fEnt])
    ∧ (load_directory "/r" false SortMode.name_asc [fEnt]).head?
        = some ⟨"..", dirname "/r", true⟩
    ∧ ∃ it ∈ load_directory "/r" false SortMode.name_asc [fEnt],
        it.path = joinPath "/r" fEnt.name ∧ it.isDirectory = fEnt.isDir :=
  ⟨(c7_listing_structure "/r" false SortMode.name_asc [fEnt]).1,
   (c7_listing_structure "/r" false SortMode.name_asc [fEnt]).2.1 rfl,
   (c7_listing_structure "/r" false SortMode.name_asc [fEnt]).2.2 fEnt
     (List.mem_singleton.mpr rfl)⟩

/-! ## C8 — first item failure aborts the batch, earlier items stay -/

/-- C8: for each of the three batch operations, when the source snapshot
is `s1 ++ x :: s2` where every matching item of `s1` succeeds, `x` matches
and its action fails with `cause`, the operation reports a single
aggregate error naming `x` and `cause`; the final state has exactly the
matching items of `s1` applied in order (no rollback) and nothing from
`x :: s2` attempted. -/
theorem c8_batch_first_failure (p : Params) (ok : String → Option String)
    (st : AppState) (s1 : List FsEntry) (x : FsEntry) (s2 : List FsEntry)
    (cause : String)
    (hsep : containsSeparators (p.pattern.getD "*") = false)
    (hsnap : getDir st (sideFrom p) = s1 ++ x :: s2)
    (hok : ∀ y ∈ s1, fnmatch y.name (p.pattern.getD "*") = true → ok y.name = none)
    (hx : fnmatch x.name (p.pattern.getD "*") = true)
    (hfail : ok x.name = some cause) :
    do_copy p ok st
      = (some (OpError.itemFailed "скопировать" x.name cause),
         List.foldl (copyStep (sideTo p)) st
           (s1.filter (fun y => fnmatch y.name (p.pattern.getD "*"))))
    ∧ do_move p ok st
      = (some (OpError.itemFailed "переместить" x.name cause),
         List.foldl (moveStep (sideFrom p) (sideTo p)) st
           (s1.filter (fun y => fnmatch y.name (p.pattern.getD "*"))))
    ∧ do_delete p ok st
      = (some (OpError.itemFailed "удалить" x.name cause),
         List.foldl (deleteStep (sideFrom p)) st
           (s1.filter (fun y => fnmatch y.name (p.pattern.getD "*")))) := by
  refine ⟨?_, ?_, ?_⟩
  · rw [do_copy, hsep]
    simp only [Bool.false_eq_true, if_false]
    rw [hsnap, batchLoop_first_failure _ _ _ _ s1 x s2 st 0 cause hok hx hfail]
  · rw [do_move, hsep]
    simp only [Bool.false_eq_true, if_false]
    rw [hsnap, batchLoop_first_failure _ _ _ _ s1 x s2 st 0 cause hok hx hfail]
  · rw [do_delete, hsep]
    simp only [Bool.false_eq_true, if_false]
    rw [hsnap, batchLoop_first_failure _ _ _ _ s1 x s2 st 0 cause hok hx hfail]

def f1 : FsEntry := ⟨"f1.txt", false, 1, 1, "1"⟩
def f2 : FsEntry := ⟨"f2.txt", false, 2, 2, "22"⟩
def f3 : FsEntry := ⟨"f3.txt", false, 3, 3, "333"⟩

/-- An oracle that fails exactly on `f2.txt`. -/
def okF2 : String → Option String :=
  fun n => if n == "f2.txt" then some "нет доступа" else none

def pStar : Params :=
  ⟨some "*", some "left", some "right", none, none, none, none, none, none⟩

def stW : AppState := ⟨[f1, f2, f3], [], Side.left⟩

/-- C8 (witness): with source `[f1, f2, f3]` and the action failing on
`f2`, each batch reports the aggregate error on `f2`; `f1` stays applied
and `f3` is untouched. -/
theorem c8_batch_first_failure_witness :
    do_copy pStar okF2 stW
      = (some (OpError.itemFailed "скопировать" "f2.txt" "нет доступа"),
         ⟨[f1, f2, f3], [f1], Side.left⟩)
    ∧ do_move pStar okF2 stW
      = (some (OpError.itemFailed "переместить" "f2.txt" "нет доступа"),
         ⟨[f2, f3], [f1], Side.left⟩)
    ∧ do_delete pStar okF2 stW
      = (some (OpError.itemFailed "удалить" "f2.txt" "нет доступа"),
         ⟨[f2, f3], [], Side.left⟩) := by
  have h := c8_batch_first_failure pStar okF2 stW [f1] f2 [f3] "нет доступа"
    (by decide) rfl (by decide) (by decide) rfl
  exact ⟨h.1.trans (by decide), h.2.1.trans (by decide), h.2.2.trans (by decide)⟩

/-! ## C9 — recentContext returns the last n entries, oldest first -/

def mkRow (i : Nat) : ChatRow :=
  ⟨i + 1, "", "", none, none, none, EntryStatus.pending, none⟩

/-- Ten rows in insertion order, ids 1..10. -/
def db10 : List ChatRow := (List.range 10).map mkRow

/-- C9: for every store and every `n`, `get_recent_history n` returns
exactly the final segment of the insertion-ordered store — the last `n`
entries, oldest first, fewer if the store holds fewer — and in particular
after 10 submissions `get_recent_history 6` returns rows 5..10 in
chronological order. -/
theorem c9_recent_history :
    (∀ (db : List ChatRow) (n : Nat),
      get_recent_history n db = db.drop (db.length - n)
      ∧ (get_recent_history n db).length = min n db.length)
    ∧ get_recent_history 6 db10 = (List.range 6).map (fun i => mkRow (i + 4)) := by
  constructor
  · intro db n
    have h1 : get_recent_history n db = db.drop (db.length - n) := by
      rw [get_recent_history, List.take_reverse, List.reverse_reverse]
    refine ⟨h1, ?_⟩
    rw [h1, List.length_drop]
    omega
  · rfl

/-! ## C10 — a missing `pattern` key defaults to `*` -/

/-- The same params with the `pattern` key set to `"*"`. -/
def withStar (p : Params) : Params :=
  ⟨some "*", p.fromSide, p.toSide, p.name, p.content, p.old_name, p.new_name,
   p.oldKey, p.newKey⟩

/-- C10: a copy/move/delete whose params omit `pattern` behaves exactly as
with `pattern = "*"` (`params.get("pattern", "*")`), and since `*` matches
every name, a delete with no pattern and no item failure empties the
directory of the source panel. -/
theorem c10_default_pattern_star (p : Params) (ok : String → Option String)
    (st : AppState) (hp : p.pattern = none)
    (hne : getDir st (sideFrom p) ≠ []) :
    do_copy p ok st = do_copy (withStar p) ok st
    ∧ do_move p ok st = do_move (withStar p) ok st
    ∧ do_delete p ok st = do_delete (withStar p) ok st
    ∧ do_delete p noFail st = (none, setDir st (sideFrom p) []) := by
  have hpat : p.pattern.getD "*" = (withStar p).pattern.getD "*" := by
    rw [hp]
    rfl
  have hFrom : sideFrom (withStar p) = sideFrom p := rfl
  have hTo : sideTo (withStar p) = sideTo p := rfl
  refine ⟨?_, ?_, ?_, ?_⟩
  · simp only [do_copy, hpat, hFrom, hTo]
  · simp only [do_move, hpat, hFrom, hTo]
  · simp only [do_delete, hpat, hFrom, hTo]
  · have hsep : containsSeparators (p.pattern.getD "*") = false := by
      rw [hp]
      rfl
    rw [do_delete, hsep]
    simp only [Bool.false_eq_true, if_false]
    rw [batchLoop_all_ok _ _ _ _ _ _ _ (fun e _ _ => rfl)]
    have hfilter : (getDir st (sideFrom p)).filter
        (fun e => fnmatch e.name (p.pattern.getD "*")) = getDir st (sideFrom p) := by
      rw [hp]
      exact List.filter_eq_self.mpr (fun e _ => fnmatch_star e.name)
    rw [hfilter, foldl_deleteStep, filter_nameInList_self]
    have hlen : ((0 + (getDir st (sideFrom p)).length) == 0) = false := by
      rw [Nat.zero_add, beq_eq_false_iff_ne]
      intro h0
      exact hne (List.length_eq_zero.mp h0)
    simp only [hlen, Bool.false_eq_true, if_false]

def stD : AppState := ⟨[f1, f3], [], Side.left⟩

def pNoPat : Params :=
  ⟨none, some "left", some "right", none, none, none, none, none, none⟩

/-- C10 (witness): the pattern-less command on a two-file panel. -/
theorem c10_default_pattern_star_witness :
    do_copy pNoPat noFail stD = do_copy (withStar pNoPat) noFail stD
    ∧ do_move pNoPat noFail stD = do_move (withStar pNoPat) noFail stD
    ∧ do_delete pNoPat noFail stD = do_delete (withStar pNoPat) noFail stD
    ∧ do_delete pNoPat noFail stD = (none, setDir stD (sideFrom pNoPat) []) :=
  c10_default_pattern_star pNoPat noFail stD rfl (by decide)

end DualExplorer
